import Mathlib

/-!
Verification of the local-nekos-best selection engine (main/main.cjs).

The JavaScript module is embedded shallowly:
- module-level mutable state (intentConfig, intentLocked, gifsData, rawGifsData)
  becomes an explicit NekoState record threaded through the functions;
- thrown exceptions become Except values; a function that can throw before
  mutating returns the original state alongside the error;
- Math.random() becomes an oracle g : Nat -> Nat together with a position
  counter p; each call to Math.floor(Math.random() * n) reads g p % n and
  advances the counter, so every theorem is quantified over all oracles;
- JavaScript argument values (undefined, null, numbers, booleans, strings,
  arrays) become small inductive types; JavaScript numbers are modelled as
  rationals plus explicit NaN / Infinity / non-number constructors;
- a JavaScript object property whose value is undefined is identified with an
  absent property (both observe as undefined), so optional metadata fields are
  Option-valued and an omitted field is none.
-/

namespace LocalNekosBest

/-- Character-list version of startsWith, used to embed String.includes. -/
def charsStartWith : List Char → List Char → Bool
  | [], _ => true
  | _ :: _, [] => false
  | a :: as, b :: bs => a == b && charsStartWith as bs

/-- Character-list substring test, used to embed String.includes. -/
def charsContain (needle : List Char) : List Char → Bool
  | [] => charsStartWith needle []
  | c :: rest => charsStartWith needle (c :: rest) || charsContain needle rest

/-- Embeds hay.includes(needle) on JavaScript strings. -/
def strIncludes (hay needle : String) : Bool :=
  charsContain needle.data hay.data

/-- Embeds JavaScript String.prototype.trim: strip whitespace from both
ends. Defined structurally on the character list so it evaluates inside the
kernel. -/
def jsTrim (s : String) : String :=
  ⟨((s.data.dropWhile Char.isWhitespace).reverse.dropWhile
      Char.isWhitespace).reverse⟩

/-- VALID_ACTIONS from main.cjs: the 46 category names. -/
def VALID_ACTIONS : List String :=
  ["angry", "baka", "bite", "blush", "bored", "cry", "cuddle", "dance",
   "facepalm", "feed", "handhold", "handshake", "happy", "highfive", "hug",
   "husbando", "kick", "kiss", "kitsune", "laugh", "lurk", "neko", "nod",
   "nom", "nope", "pat", "peck", "poke", "pout", "punch", "run", "shoot",
   "shrug", "slap", "sleep", "smile", "smug", "stare", "think", "thumbsup",
   "tickle", "waifu", "wave", "wink", "yawn", "yeet"]

/-- IMAGE_CATEGORIES from main.cjs: categories of content type 1 (image). -/
def IMAGE_CATEGORIES : List String :=
  ["husbando", "kitsune", "neko", "waifu"]

/-- CONTENT_TYPES.IMAGE -/
def CT_IMAGE : Nat := 1

/-- CONTENT_TYPES.GIF -/
def CT_GIF : Nat := 2

/-- CONTENT_TYPES.BOTH -/
def CT_BOTH : Nat := 3

/-- CONFIG.MAX_RETRY_ATTEMPTS -/
def MAX_RETRY_ATTEMPTS : Nat := 50

/-- CONFIG.BASE_URL -/
def BASE_URL : String := "https://nekos.best/api/v2"

/-- METADATA_FIELDS.IMAGE -/
def METADATA_FIELDS_IMAGE : List String :=
  ["artist_href", "artist_name", "source_url"]

/-- METADATA_FIELDS.GIF -/
def METADATA_FIELDS_GIF : List String :=
  ["anime_name"]

/-- One raw entry of data.json: a url suffix plus optional metadata fields.
A field that is absent on the JSON record is none. -/
structure CatalogRecord where
  url : String
  artist_href : Option String := none
  artist_name : Option String := none
  source_url : Option String := none
  anime_name : Option String := none
deriving DecidableEq, Inhabited

/-- The intentConfig module variable of main.cjs. metadata = none models the
JavaScript null (all fields); some fs models an explicit field list. -/
structure IntentConfig where
  active : Bool
  metadata : Option (List String)
  type : Nat
  allowedCategories : List String
deriving DecidableEq, Inhabited

/-- The module state of main.cjs: intentConfig, intentLocked, gifsData and
rawGifsData (none once freed). Category data is an association list in
insertion order, mirroring a JavaScript object's string-keyed entries. -/
structure NekoState where
  intentConfig : IntentConfig
  intentLocked : Bool
  gifsData : List (String × List CatalogRecord)
  rawGifsData : Option (List (String × List CatalogRecord))
deriving DecidableEq, Inhabited

/-- The initial module state, before any configuration, over a given parsed
data.json content. -/
def initState (data : List (String × List CatalogRecord)) : NekoState :=
  { intentConfig :=
      { active := false
        metadata := none
        type := CT_BOTH
        allowedCategories := VALID_ACTIONS }
    intentLocked := false
    gifsData := data
    rawGifsData := some data }

/-- The spec's error taxonomy for the Error values thrown by main.cjs. -/
inductive NekoError where
  | configurationError (msg : String)
  | validationError (msg : String)
  | intentViolationError (msg : String)
deriving DecidableEq

/-- A JavaScript value passed as the metadata option of callNekoIntent.
other covers every remaining value shape (objects, NaN, functions, ...). -/
inductive MetaArg where
  | undef
  | jsnull
  | bool (b : Bool)
  | num (q : ℚ)
  | str (s : String)
  | arr (fields : List String)
  | other
deriving DecidableEq

/-- A JavaScript value passed as a type option (content type). -/
inductive TypeArg where
  | undef
  | jsnull
  | num (q : ℚ)
  | str (s : String)
  | other
deriving DecidableEq

/-- A JavaScript value passed as the mode option. -/
inductive ModeArg where
  | undef
  | jsnull
  | num (q : ℚ)
  | str (s : String)
  | other
deriving DecidableEq

/-- A JavaScript value passed as the amount option: absent, a finite number,
NaN, an infinity, or not a number at all. -/
inductive AmountArg where
  | undef
  | num (q : ℚ)
  | nan
  | inf
  | nonNumber
deriving DecidableEq

/-- A JavaScript value passed as the actions option. -/
inductive ActionsArg where
  | undef
  | one (a : String)
  | many (as : List String)
deriving DecidableEq

/-- A JavaScript value passed as the search option. -/
inductive SearchArg where
  | undef
  | one (s : String)
  | many (ss : List String)
deriving DecidableEq

/-- getContentType from main.cjs: 1 for image categories, 2 for GIFs. -/
def getContentType (category : String) : Nat :=
  if IMAGE_CATEGORIES.contains category then CT_IMAGE else CT_GIF

/-- constructFullUrl from main.cjs. -/
def constructFullUrl (filename : String) : String :=
  BASE_URL ++ filename

/-- normalizeType from main.cjs. TYPE_ALIASES is an object whose keys are
the strings "1","2","3","image","images","gif","gifs","both"; a numeric
lookup is coerced through its decimal string, so exactly the numbers
1, 2, 3 hit the table, and the string forms "1","2","3" resolve the same
way. The trailing [1,2,3].includes check adds nothing new; everything else
defaults to BOTH. -/
def normalizeType : TypeArg → Nat
  | .undef => CT_BOTH
  | .jsnull => CT_BOTH
  | .num q =>
      if q = 1 then CT_IMAGE
      else if q = 2 then CT_GIF
      else if q = 3 then CT_BOTH
      else CT_BOTH
  | .str s =>
      if s = "1" ∨ s = "image" ∨ s = "images" then CT_IMAGE
      else if s = "2" ∨ s = "gif" ∨ s = "gifs" then CT_GIF
      else if s = "3" ∨ s = "both" then CT_BOTH
      else CT_BOTH
  | .other => CT_BOTH

/-- The three selection modes of main.cjs. -/
inductive Mode where
  | random
  | distributed
  | each
deriving DecidableEq

/-- normalizeMode from main.cjs. MODE_ALIASES is an object whose keys are
the strings "1","2","3","random","distributed","each", so both the numbers
1, 2, 3 and those same strings resolve through the table; everything else
defaults to RANDOM. -/
def normalizeMode : ModeArg → Mode
  | .undef => .random
  | .jsnull => .random
  | .num q =>
      if q = 1 then .random
      else if q = 2 then .distributed
      else if q = 3 then .each
      else .random
  | .str s =>
      if s = "1" ∨ s = "random" then .random
      else if s = "2" ∨ s = "distributed" then .distributed
      else if s = "3" ∨ s = "each" then .each
      else .random
  | .other => .random

/-- shouldIncludeMetadataField from main.cjs. -/
def shouldIncludeMetadataField (cfg : IntentConfig) (field category : String) :
    Bool :=
  if !cfg.active then
    true
  else
    match cfg.metadata with
    | none =>
        if getContentType category = CT_IMAGE then
          METADATA_FIELDS_IMAGE.contains field
        else
          METADATA_FIELDS_GIF.contains field
    | some fields =>
        if fields.length = 0 then false
        else fields.contains field

/-- The externally visible response shape. A metadata field the code does not
assign (or assigns from an absent record field) is none. -/
structure ResponseObject where
  url : String
  action : String
  type : Nat
  artist_href : Option String := none
  artist_name : Option String := none
  source_url : Option String := none
  anime_name : Option String := none
deriving DecidableEq, Inhabited

/-- createResponseObject from main.cjs: base fields plus the metadata fields
that pass shouldIncludeMetadataField, copied from the record. -/
def createResponseObject (cfg : IntentConfig) (item : CatalogRecord)
    (category : String) : ResponseObject :=
  if IMAGE_CATEGORIES.contains category then
    { url := constructFullUrl item.url
      action := category
      type := getContentType category
      artist_href :=
        if shouldIncludeMetadataField cfg "artist_href" category then
          item.artist_href
        else none
      artist_name :=
        if shouldIncludeMetadataField cfg "artist_name" category then
          item.artist_name
        else none
      source_url :=
        if shouldIncludeMetadataField cfg "source_url" category then
          item.source_url
        else none }
  else
    { url := constructFullUrl item.url
      action := category
      type := getContentType category
      anime_name :=
        if shouldIncludeMetadataField cfg "anime_name" category then
          item.anime_name
        else none }

/-- Error message of the locked-gate throw in callNekoIntent. -/
def intentLockedMsg : String :=
  "Intent already configured. callNekoIntent() can only be called once per session."

/-- Error message of the invalid-metadata-fields throw in callNekoIntent. -/
def invalidMetadataFieldsMsg : String :=
  "Invalid metadata fields"

/-- Error message of the malformed-metadata throw in callNekoIntent. -/
def malformedMetadataMsg : String :=
  "metadata must be 0/false (none), 1/true (all), or array of field names"

/-- The metadata-normalization block of callNekoIntent (lines 203-267),
including the trailing narrowing of null to the kind-specific field set when
the type is IMAGE or GIF only. -/
def normalizeMetadata (metadata : MetaArg) (normalizedType : Nat) :
    Except NekoError (Option (List String)) :=
  let narrowed : Option (List String) :=
    if normalizedType = CT_IMAGE then some METADATA_FIELDS_IMAGE
    else if normalizedType = CT_GIF then some METADATA_FIELDS_GIF
    else none
  match metadata with
  | .undef => .ok narrowed
  | .jsnull => .ok narrowed
  | .bool b => if b then .ok narrowed else .ok (some [])
  | .num q =>
      if q = 0 then .ok (some [])
      else if q = 1 then .ok narrowed
      else .error (.configurationError malformedMetadataMsg)
  | .str _ => .error (.configurationError malformedMetadataMsg)
  | .other => .error (.configurationError malformedMetadataMsg)
  | .arr fields =>
      let requestedFields := (fields.map jsTrim).filter (fun f => f ≠ "")
      let allValidFields := METADATA_FIELDS_IMAGE ++ METADATA_FIELDS_GIF
      let invalidFields :=
        requestedFields.filter (fun f => !allValidFields.contains f)
      if invalidFields.length > 0 then
        .error (.configurationError invalidMetadataFieldsMsg)
      else
        let gifPart :=
          if normalizedType = CT_GIF ∨ normalizedType = CT_BOTH then
            requestedFields.filter (fun f => METADATA_FIELDS_GIF.contains f)
          else []
        let imagePart :=
          if normalizedType = CT_IMAGE ∨ normalizedType = CT_BOTH then
            requestedFields.filter (fun f => METADATA_FIELDS_IMAGE.contains f)
          else []
        .ok (some (gifPart ++ imagePart))

/-- The options object accepted by callNekoIntent. -/
structure IntentOptions where
  metadata : MetaArg := .undef
  type : TypeArg := .undef
deriving DecidableEq

/-- callNekoIntent from main.cjs. Returns the call outcome together with the
module state after the call; every throw happens before any state mutation in
the source, so each error outcome carries the unchanged input state. -/
def callNekoIntent (opts : IntentOptions) (s : NekoState) :
    Except NekoError Unit × NekoState :=
  if s.intentLocked then
    (.error (.configurationError intentLockedMsg), s)
  else
    let normalizedType := normalizeType opts.type
    let allowedCategories := VALID_ACTIONS.filter (fun action =>
      normalizedType = CT_BOTH ∨ getContentType action = normalizedType)
    match normalizeMetadata opts.metadata normalizedType with
    | .error e => (.error e, s)
    | .ok metadataFields =>
        let raw := s.rawGifsData.getD []
        let gifsData := allowedCategories.filterMap (fun category =>
          (raw.lookup category).map (fun items => (category, items)))
        (.ok (),
          { intentConfig :=
              { active := true
                metadata := metadataFields
                type := normalizedType
                allowedCategories := allowedCategories }
            intentLocked := true
            gifsData := gifsData
            rawGifsData := none })

/-- Error message of the invalid-actions throw in normalizeActions. -/
def invalidActionsMsg : String :=
  "Invalid actions"

/-- Error message of validateIntentAction, parameterized by the action. -/
def intentViolationMsg (action : String) : String :=
  "Action " ++ action ++ " was not specified in intent"

/-- validateIntentAction from main.cjs, as a predicate: true when the action
violates the active intent. -/
def violatesIntent (cfg : IntentConfig) (action : String) : Bool :=
  cfg.active && !cfg.allowedCategories.contains action

/-- The array branch of normalizeActions: validate against VALID_ACTIONS and
against the intent (forEach throws at the first violating action). -/
def normalizeActionArray (cfg : IntentConfig) (actionArray : List String) :
    Except NekoError (List String) :=
  let invalidActions :=
    actionArray.filter (fun a => !VALID_ACTIONS.contains a)
  if invalidActions.length > 0 then
    .error (.validationError invalidActionsMsg)
  else
    match actionArray.find? (fun a => violatesIntent cfg a) with
    | some a => .error (.intentViolationError (intentViolationMsg a))
    | none => .ok actionArray

/-- normalizeActions from main.cjs. -/
def normalizeActions (cfg : IntentConfig) : ActionsArg →
    Except NekoError (List String)
  | .undef =>
      if cfg.active then .ok cfg.allowedCategories
      else .ok VALID_ACTIONS
  | .one a => normalizeActionArray cfg [a]
  | .many as => normalizeActionArray cfg as

/-- normalizeSearch from main.cjs: coerce to a list, trim, drop empties. -/
def normalizeSearch : SearchArg → List String
  | .undef => []
  | .one s => if s = "" then [] else [jsTrim s].filter (fun t => t ≠ "")
  | .many ss => (ss.map jsTrim).filter (fun t => t ≠ "")

/-- matchesContentType from main.cjs. -/
def matchesContentType (category : String) (contentType : Nat) : Bool :=
  if contentType = CT_BOTH then true
  else getContentType category == contentType

/-- matchesSearch from main.cjs: the kind-appropriate metadata field must
contain some search term case-insensitively; a missing or empty field (falsy
in JavaScript) never matches a non-empty term list. -/
def matchesSearch (item : CatalogRecord) (category : String)
    (searchTerms : List String) : Bool :=
  if searchTerms.length = 0 then true
  else
    let searchField :=
      if IMAGE_CATEGORIES.contains category then item.artist_name
      else item.anime_name
    match searchField with
    | none => false
    | some s =>
        if s = "" then false
        else
          let fieldLower := s.toLower
          searchTerms.any (fun term => strIncludes fieldLower term.toLower)

/-- Error message of the empty-type-intersection throw. -/
def noCategoriesMatchMsg : String :=
  "No categories match content type filter"

/-- validateAndFilterCategories from main.cjs. -/
def validateAndFilterCategories (categories : List String)
    (contentType : Nat) : Except NekoError (List String) :=
  let filtered := categories.filter (fun cat =>
    matchesContentType cat contentType)
  if filtered.length = 0 then
    .error (.validationError noCategoriesMatchMsg)
  else
    .ok filtered

/-- buildSearchFilteredCategories from main.cjs: per category, look the data
up, filter by search, and keep only non-empty pools, in category order (the
JavaScript Map preserves insertion order). -/
def buildSearchFilteredCategories
    (data : List (String × List CatalogRecord))
    (categories : List String) (searchTerms : List String) :
    List (String × List CatalogRecord) :=
  categories.filterMap (fun category =>
    match data.lookup category with
    | none => none
    | some categoryItems =>
        let filtered := categoryItems.filter (fun item =>
          matchesSearch item category searchTerms)
        if filtered.length > 0 then some (category, filtered) else none)

/-- The bounded Fisher-Yates loop of getRandomItems (its no-duplicate
branch): remaining picks left, i the current position, indices the index
array, p the oracle position. Each step draws j uniformly in [i, n), swaps,
and emits the item at the new indices[i]. -/
def fisherYatesLoop (cfg : IntentConfig) (items : List CatalogRecord)
    (category : String) (g : ℕ → ℕ) :
    ℕ → List ℕ → ℕ → ℕ → List ResponseObject
  | 0, _, _, _ => []
  | remaining + 1, indices, i, p =>
      let available := items.length
      let randomIndex := i + g p % (available - i)
      let indices' :=
        (indices.set i (indices.getD randomIndex 0)).set randomIndex
          (indices.getD i 0)
      createResponseObject cfg (items.getD (indices'.getD i 0) default)
          category ::
        fisherYatesLoop cfg items category g remaining indices' (i + 1) (p + 1)

/-- getRandomItems from main.cjs. Returns the selected response objects and
the oracle position after the call. -/
def getRandomItems (cfg : IntentConfig) (items : List CatalogRecord)
    (count : ℕ) (category : String) (allowDuplicates : Bool) (g : ℕ → ℕ)
    (p : ℕ) : List ResponseObject × ℕ :=
  let available := items.length
  if available = 0 then
    ([], p)
  else if !allowDuplicates && count ≥ available then
    (items.map (fun item => createResponseObject cfg item category), p)
  else if allowDuplicates then
    ((List.range count).map (fun i =>
      createResponseObject cfg (items.getD (g (p + i) % available) default)
        category), p + count)
  else
    let actualCount := min count available
    (fisherYatesLoop cfg items category g actualCount
      (List.range available) 0 p, p + actualCount)

/-- The bounded duplicate-avoidance loop of selectRandomMode: up to fuel
attempts, draw an item from the pool and accept it when its constructed URL
is not yet used. Returns the accepted record (none when all attempts hit
used URLs) and the oracle position after the loop. -/
def retryLoop (pool : List CatalogRecord) (usedUrls : List String)
    (g : ℕ → ℕ) : ℕ → ℕ → Option CatalogRecord × ℕ
  | 0, p => (none, p)
  | fuel + 1, p =>
      let randomItem := pool.getD (g p % pool.length) default
      let url := constructFullUrl randomItem.url
      if usedUrls.contains url then
        retryLoop pool usedUrls g fuel (p + 1)
      else
        (some randomItem, p + 1)

/-- The main draw loop of selectRandomMode for several surviving categories:
one iteration per requested item; each picks a category uniformly, then an
item (directly when duplicates are allowed, through retryLoop otherwise);
exhausting the retry cap breaks out of the loop. -/
def randomModeLoop (cfg : IntentConfig)
    (availablePools : List (String × List CatalogRecord))
    (allowDuplicates : Bool) (g : ℕ → ℕ) :
    ℕ → List String → ℕ → List ResponseObject × ℕ
  | 0, _, p => ([], p)
  | remaining + 1, usedUrls, p =>
      let chosen := availablePools.getD (g p % availablePools.length)
        ("", [])
      let randomCategory := chosen.1
      let categoryItems := chosen.2
      if allowDuplicates then
        let randomItem :=
          categoryItems.getD (g (p + 1) % categoryItems.length) default
        let rest := randomModeLoop cfg availablePools allowDuplicates g
          remaining usedUrls (p + 2)
        (createResponseObject cfg randomItem randomCategory :: rest.1, rest.2)
      else
        match retryLoop categoryItems usedUrls g MAX_RETRY_ATTEMPTS
            (p + 1) with
        | (none, p') => ([], p')
        | (some randomItem, p') =>
            let url := constructFullUrl randomItem.url
            let rest := randomModeLoop cfg availablePools allowDuplicates g
              remaining (url :: usedUrls) p'
            (createResponseObject cfg randomItem randomCategory :: rest.1,
              rest.2)

/-- selectRandomMode from main.cjs. -/
def selectRandomMode (cfg : IntentConfig)
    (data : List (String × List CatalogRecord)) (amount : ℕ)
    (categories searchTerms : List String) (allowDuplicates : Bool)
    (g : ℕ → ℕ) (p : ℕ) : List ResponseObject × ℕ :=
  let filteredMap := buildSearchFilteredCategories data categories searchTerms
  if filteredMap.length = 0 then
    ([], p)
  else if filteredMap.length = 1 then
    let chosen := filteredMap.getD 0 ("", [])
    getRandomItems cfg chosen.2 amount chosen.1 allowDuplicates g p
  else
    randomModeLoop cfg filteredMap allowDuplicates g amount [] p

/-- The forEach loop of selectDistributedMode: index counts up from 0; the
categories with index below the remainder receive one extra item. -/
def distributedLoop (cfg : IntentConfig) (baseAmount remainder : ℕ)
    (allowDuplicates : Bool) (g : ℕ → ℕ) :
    List (String × List CatalogRecord) → ℕ → ℕ → List ResponseObject × ℕ
  | [], _, p => ([], p)
  | (cat, pool) :: rest, index, p =>
      let categoryAmount :=
        if index < remainder then baseAmount + 1 else baseAmount
      let items := getRandomItems cfg pool categoryAmount cat allowDuplicates
        g p
      let restItems := distributedLoop cfg baseAmount remainder
        allowDuplicates g rest (index + 1) items.2
      (items.1 ++ restItems.1, restItems.2)

/-- selectDistributedMode from main.cjs. -/
def selectDistributedMode (cfg : IntentConfig)
    (data : List (String × List CatalogRecord)) (amount : ℕ)
    (categories searchTerms : List String) (allowDuplicates : Bool)
    (g : ℕ → ℕ) (p : ℕ) : List ResponseObject × ℕ :=
  let filteredMap := buildSearchFilteredCategories data categories searchTerms
  if filteredMap.length = 0 then
    ([], p)
  else
    let baseAmount := amount / filteredMap.length
    let remainder := amount % filteredMap.length
    distributedLoop cfg baseAmount remainder allowDuplicates g filteredMap 0 p

/-- The forEach loop of selectEachMode. -/
def eachLoop (cfg : IntentConfig) (amount : ℕ) (allowDuplicates : Bool)
    (g : ℕ → ℕ) :
    List (String × List CatalogRecord) → ℕ → List ResponseObject × ℕ
  | [], p => ([], p)
  | (cat, pool) :: rest, p =>
      let items := getRandomItems cfg pool amount cat allowDuplicates g p
      let restItems := eachLoop cfg amount allowDuplicates g rest items.2
      (items.1 ++ restItems.1, restItems.2)

/-- selectEachMode from main.cjs. -/
def selectEachMode (cfg : IntentConfig)
    (data : List (String × List CatalogRecord)) (amount : ℕ)
    (categories searchTerms : List String) (allowDuplicates : Bool)
    (g : ℕ → ℕ) (p : ℕ) : List ResponseObject × ℕ :=
  let filteredMap := buildSearchFilteredCategories data categories searchTerms
  if filteredMap.length = 0 then
    ([], p)
  else
    eachLoop cfg amount allowDuplicates g filteredMap p

/-- The options object accepted by callNeko. dupe is modelled as the boolean
it is coerced to. -/
structure CallOptions where
  amount : AmountArg := .undef
  actions : ActionsArg := .undef
  search : SearchArg := .undef
  type : TypeArg := .undef
  mode : ModeArg := .undef
  dupe : Bool := false
deriving DecidableEq

/-- The normalized options produced by parseOptions. -/
structure ParsedOptions where
  amount : ℕ
  actions : List String
  search : List String
  type : Nat
  mode : Mode
  dupe : Bool
deriving DecidableEq

/-- Error message of the amount validation throw in parseOptions. -/
def amountErrMsg : String :=
  "Amount must be a finite number greater than or equal to 1"

/-- The amount handling of parseOptions: destructuring default 1 when the
option is undefined, then the typeof / isFinite / lower-bound check, then
Math.floor (which coincides with truncation toward zero for amounts that
passed the check). -/
def parseAmount : AmountArg → Except NekoError ℕ
  | .undef => .ok 1
  | .num q =>
      if q < 1 then .error (.validationError amountErrMsg)
      else .ok (Int.toNat ⌊q⌋)
  | .nan => .error (.validationError amountErrMsg)
  | .inf => .error (.validationError amountErrMsg)
  | .nonNumber => .error (.validationError amountErrMsg)

/-- parseOptions from main.cjs: amount validation first, then action,
search, type and mode normalization, then the type cross-validation; the
first failing step aborts the call. -/
def parseOptions (cfg : IntentConfig) (opts : CallOptions) :
    Except NekoError ParsedOptions :=
  match parseAmount opts.amount with
  | .error e => .error e
  | .ok amount =>
    match normalizeActions cfg opts.actions with
    | .error e => .error e
    | .ok normalizedActions =>
      let normalizedSearch := normalizeSearch opts.search
      let normalizedType := normalizeType opts.type
      let normalizedMode := normalizeMode opts.mode
      match validateAndFilterCategories normalizedActions normalizedType with
      | .error e => .error e
      | .ok validActions =>
          .ok { amount := amount
                actions := validActions
                search := normalizedSearch
                type := normalizedType
                mode := normalizedMode
                dupe := opts.dupe }

/-- The mode dispatch of callNeko: run the selection engine for the parsed
options over the current state. -/
def runEngine (s : NekoState) (g : ℕ → ℕ) (params : ParsedOptions) :
    List ResponseObject :=
  match params.mode with
  | .random =>
      (selectRandomMode s.intentConfig s.gifsData params.amount params.actions
        params.search params.dupe g 0).1
  | .distributed =>
      (selectDistributedMode s.intentConfig s.gifsData params.amount
        params.actions params.search params.dupe g 0).1
  | .each =>
      (selectEachMode s.intentConfig s.gifsData params.amount params.actions
        params.search params.dupe g 0).1

/-- The result of callNeko: one unwrapped item, or a sequence. -/
inductive NekoResult where
  | single (item : ResponseObject)
  | many (items : List ResponseObject)
deriving DecidableEq

/-- callNeko from main.cjs. -/
def callNeko (s : NekoState) (g : ℕ → ℕ) (opts : CallOptions) :
    Except NekoError NekoResult :=
  match parseOptions s.intentConfig opts with
  | .error e => .error e
  | .ok params =>
      let result := runEngine s g params
      .ok (if params.amount = 1 ∧ result.length = 1 then
            .single (result.headD default)
          else
            .many result)

/-- Reads one metadata field of a response object by name; names the response
object does not carry map to none. -/
def responseField (r : ResponseObject) (field : String) : Option String :=
  if field = "artist_href" then r.artist_href
  else if field = "artist_name" then r.artist_name
  else if field = "source_url" then r.source_url
  else if field = "anime_name" then r.anime_name
  else none

/-- Reads one metadata field of a raw catalog record by name. -/
def recordField (item : CatalogRecord) (field : String) : Option String :=
  if field = "artist_href" then item.artist_href
  else if field = "artist_name" then item.artist_name
  else if field = "source_url" then item.source_url
  else if field = "anime_name" then item.anime_name
  else none

/-- The metadata field names present on a response object, in the sense of a
JavaScript property that observes as defined. -/
def presentFields (r : ResponseObject) : List String :=
  (METADATA_FIELDS_IMAGE ++ METADATA_FIELDS_GIF).filter
    (fun field => (responseField r field).isSome)

/-- The metadata fields valid for a content type (1 = image, otherwise GIF),
matching the kind split of METADATA_FIELDS in main.cjs. -/
def metadataFieldsForType (t : Nat) : List String :=
  if t = CT_IMAGE then METADATA_FIELDS_IMAGE else METADATA_FIELDS_GIF

/-- Sample record for the hug category (a GIF category). -/
def recHugA : CatalogRecord :=
  { url := "/hug/a.gif", anime_name := some "Anime A" }

/-- Second sample record for the hug category. -/
def recHugB : CatalogRecord :=
  { url := "/hug/b.gif", anime_name := some "Anime B" }

/-- Sample record for the waifu category (an image category). -/
def recWaifuA : CatalogRecord :=
  { url := "/waifu/a.png", artist_name := some "Artist A",
    artist_href := some "https://example.com/a",
    source_url := some "https://example.com/src-a" }

/-- Second sample record for the waifu category. -/
def recWaifuB : CatalogRecord :=
  { url := "/waifu/b.png", artist_name := some "Artist B" }

/-- A small concrete data.json content used to instantiate theorems. -/
def dataEx : List (String × List CatalogRecord) :=
  [("hug", [recHugA, recHugB]), ("waifu", [recWaifuA, recWaifuB])]

/-- The fresh module state over the sample data. -/
def stateEx : NekoState := initState dataEx

/-- The module state after a successful default configuration call. -/
def lockedStateEx : NekoState :=
  (callNekoIntent {} stateEx).2

/-- A concrete random oracle that always returns zero. -/
def gZero : ℕ → ℕ := fun _ => 0

/-- Both branches of createResponseObject set the url field to the
constructed full URL of the record. -/
theorem createResponseObject_url (cfg : IntentConfig) (item : CatalogRecord)
    (category : String) :
    (createResponseObject cfg item category).url = constructFullUrl item.url := by
  unfold createResponseObject
  split <;> rfl

/-- Both branches of createResponseObject set the action field to the
category. -/
theorem createResponseObject_action (cfg : IntentConfig)
    (item : CatalogRecord) (category : String) :
    (createResponseObject cfg item category).action = category := by
  unfold createResponseObject
  split <;> rfl

/-- C1: the intent gate locks exactly once. A call on a locked state fails
with the ConfigurationError and returns the state unchanged (gate fields and
pruned catalog included); a successful call can only start from an unlocked
state and ends in a locked, active one. -/
theorem C1_intent_gate_locks_exactly_once :
    (∀ opts s, s.intentLocked = true →
      callNekoIntent opts s =
        (.error (.configurationError intentLockedMsg), s)) ∧
    (∀ opts s, (callNekoIntent opts s).1 = .ok () →
      s.intentLocked = false ∧
      (callNekoIntent opts s).2.intentLocked = true ∧
      (callNekoIntent opts s).2.intentConfig.active = true) := by
  constructor
  · intro opts s h
    simp [callNekoIntent, h]
  · intro opts s h
    by_cases hl : s.intentLocked
    · simp [callNekoIntent, hl] at h
    · cases hm : normalizeMetadata opts.metadata (normalizeType opts.type) with
      | error e => simp [callNekoIntent, hl, hm] at h
      | ok mf =>
          refine ⟨by simpa using hl, ?_, ?_⟩ <;> simp [callNekoIntent, hl, hm]

/-- C1 witness: a second configuration call on the locked sample state fails
and leaves the state untouched. -/
theorem C1_witness :
    callNekoIntent {} lockedStateEx =
      (.error (.configurationError intentLockedMsg), lockedStateEx) :=
  C1_intent_gate_locks_exactly_once.1 {} lockedStateEx (by decide)

/-- C3: when duplicates are disallowed and the request is at least the pool
size, getRandomItems returns the whole pool, each item exactly once (the
result is the pool image under the projector, hence a permutation of it),
with no error and with the oracle left unread. -/
theorem C3_full_pool_permutation (cfg : IntentConfig)
    (items : List CatalogRecord) (count : ℕ) (category : String)
    (g : ℕ → ℕ) (p : ℕ) (hne : items ≠ []) (hcount : count ≥ items.length) :
    (getRandomItems cfg items count category false g p).1 =
      items.map (fun item => createResponseObject cfg item category) ∧
    ((getRandomItems cfg items count category false g p).1).Perm
      (items.map (fun item => createResponseObject cfg item category)) ∧
    (getRandomItems cfg items count category false g p).1.length =
      items.length ∧
    (getRandomItems cfg items count category false g p).2 = p := by
  have hlen : items.length ≠ 0 := by
    simpa [List.length_eq_zero] using hne
  have hbranch :
      getRandomItems cfg items count category false g p =
        (items.map (fun item => createResponseObject cfg item category), p) := by
    unfold getRandomItems
    simp [hlen, hcount]
  refine ⟨by rw [hbranch], ?_, by rw [hbranch]; simp, by rw [hbranch]⟩
  rw [hbranch]

/-- C3 witness: requesting three items without duplicates from the
two-record hug pool returns both records exactly once. -/
theorem C3_witness :
    ([recHugA, recHugB] : List CatalogRecord) ≠ [] ∧
    (getRandomItems (initState dataEx).intentConfig [recHugA, recHugB] 3
        "hug" false gZero 0).1 =
      [recHugA, recHugB].map
        (fun item =>
          createResponseObject (initState dataEx).intentConfig item "hug") :=
  ⟨by decide,
    (C3_full_pool_permutation (initState dataEx).intentConfig
      [recHugA, recHugB] 3 "hug" gZero 0 (by decide) (by decide)).1⟩

/-- C4: every metadata field present on a produced response object is valid
for the item's kind, passes the locked projection policy, and is present on
the underlying record (so an absent record field is omitted, never emitted
with a null value). -/
theorem C4_projection_subset (cfg : IntentConfig) (item : CatalogRecord)
    (category field : String)
    (h : field ∈ presentFields (createResponseObject cfg item category)) :
    field ∈ metadataFieldsForType (getContentType category) ∧
    shouldIncludeMetadataField cfg field category = true ∧
    (recordField item field).isSome = true := by
  simp only [presentFields, List.mem_filter, decide_eq_true_eq] at h
  obtain ⟨hmem, hsome⟩ := h
  have hcases : field = "artist_href" ∨ field = "artist_name" ∨
      field = "source_url" ∨ field = "anime_name" := by
    simpa [METADATA_FIELDS_IMAGE, METADATA_FIELDS_GIF] using hmem
  by_cases himg : category ∈ IMAGE_CATEGORIES
  · have hct : getContentType category = CT_IMAGE := by
      simp [getContentType, himg]
    rw [hct]
    rcases hcases with rfl | rfl | rfl | rfl
    · have hresp : responseField (createResponseObject cfg item category)
          "artist_href" =
          if shouldIncludeMetadataField cfg "artist_href" category then
            item.artist_href
          else none := by
        simp [createResponseObject, responseField, himg]
      rw [hresp] at hsome
      by_cases hs : shouldIncludeMetadataField cfg "artist_href" category
      · rw [if_pos hs] at hsome
        exact ⟨by simp [metadataFieldsForType, METADATA_FIELDS_IMAGE], hs,
          by simpa [recordField] using hsome⟩
      · simp [hs] at hsome
    · have hresp : responseField (createResponseObject cfg item category)
          "artist_name" =
          if shouldIncludeMetadataField cfg "artist_name" category then
            item.artist_name
          else none := by
        simp [createResponseObject, responseField, himg]
      rw [hresp] at hsome
      by_cases hs : shouldIncludeMetadataField cfg "artist_name" category
      · rw [if_pos hs] at hsome
        exact ⟨by simp [metadataFieldsForType, METADATA_FIELDS_IMAGE], hs,
          by simpa [recordField] using hsome⟩
      · simp [hs] at hsome
    · have hresp : responseField (createResponseObject cfg item category)
          "source_url" =
          if shouldIncludeMetadataField cfg "source_url" category then
            item.source_url
          else none := by
        simp [createResponseObject, responseField, himg]
      rw [hresp] at hsome
      by_cases hs : shouldIncludeMetadataField cfg "source_url" category
      · rw [if_pos hs] at hsome
        exact ⟨by simp [metadataFieldsForType, METADATA_FIELDS_IMAGE], hs,
          by simpa [recordField] using hsome⟩
      · simp [hs] at hsome
    · have hresp : responseField (createResponseObject cfg item category)
          "anime_name" = none := by
        simp [createResponseObject, responseField, himg]
      rw [hresp] at hsome
      simp at hsome
  · have hct : getContentType category = CT_GIF := by
      simp [getContentType, himg]
    rw [hct]
    rcases hcases with rfl | rfl | rfl | rfl
    · have hresp : responseField (createResponseObject cfg item category)
          "artist_href" = none := by
        simp [createResponseObject, responseField, himg]
      rw [hresp] at hsome
      simp at hsome
    · have hresp : responseField (createResponseObject cfg item category)
          "artist_name" = none := by
        simp [createResponseObject, responseField, himg]
      rw [hresp] at hsome
      simp at hsome
    · have hresp : responseField (createResponseObject cfg item category)
          "source_url" = none := by
        simp [createResponseObject, responseField, himg]
      rw [hresp] at hsome
      simp at hsome
    · have hresp : responseField (createResponseObject cfg item category)
          "anime_name" =
          if shouldIncludeMetadataField cfg "anime_name" category then
            item.anime_name
          else none := by
        simp [createResponseObject, responseField, himg]
      rw [hresp] at hsome
      by_cases hs : shouldIncludeMetadataField cfg "anime_name" category
      · rw [if_pos hs] at hsome
        exact ⟨by simp [metadataFieldsForType, METADATA_FIELDS_GIF, CT_GIF,
          CT_IMAGE], hs, by simpa [recordField] using hsome⟩
      · simp [hs] at hsome

/-- C4 witness: the artist_name field emitted for a waifu record under the
unconfigured gate is image-valid, policy-allowed, and backed by the record. -/
theorem C4_witness :
    "artist_name" ∈ metadataFieldsForType (getContentType "waifu") ∧
    shouldIncludeMetadataField (initState dataEx).intentConfig "artist_name"
      "waifu" = true ∧
    (recordField recWaifuA "artist_name").isSome = true :=
  C4_projection_subset (initState dataEx).intentConfig recWaifuA "waifu"
    "artist_name" (by decide)

/-- A record accepted by the bounded retry loop has a URL outside the used
set. -/
theorem retryLoop_fresh (pool : List CatalogRecord) (usedUrls : List String)
    (g : ℕ → ℕ) :
    ∀ fuel p item p', retryLoop pool usedUrls g fuel p = (some item, p') →
      usedUrls.contains (constructFullUrl item.url) = false := by
  intro fuel
  induction fuel with
  | zero =>
      intro p item p' h
      simp [retryLoop] at h
  | succ n ih =>
      intro p item p' h
      rw [retryLoop] at h
      split at h
      · exact ih _ _ _ h
      · rename_i hc
        obtain ⟨h1, _⟩ := Prod.mk.injEq _ _ _ _ ▸ h
        cases h1
        simpa using hc

/-- Invariant of the multi-category random draw loop without duplicates: at
most one item per iteration, every produced URL avoids the incoming used
set, and the produced URLs are pairwise distinct. -/
theorem randomModeLoop_invariant (cfg : IntentConfig)
    (pools : List (String × List CatalogRecord)) (g : ℕ → ℕ) :
    ∀ remaining usedUrls p,
      (randomModeLoop cfg pools false g remaining usedUrls p).1.length ≤
        remaining ∧
      (∀ u ∈ (randomModeLoop cfg pools false g remaining usedUrls p).1.map
          ResponseObject.url, usedUrls.contains u = false) ∧
      ((randomModeLoop cfg pools false g remaining usedUrls p).1.map
          ResponseObject.url).Nodup := by
  intro remaining
  induction remaining with
  | zero =>
      intro usedUrls p
      simp [randomModeLoop]
  | succ n ih =>
      intro usedUrls p
      rw [randomModeLoop]
      simp only [Bool.false_eq_true, if_false]
      cases hres : retryLoop
          (pools.getD (g p % pools.length) ("", [])).2 usedUrls g
          MAX_RETRY_ATTEMPTS (p + 1) with
      | mk found p' =>
          cases found with
          | none => simp
          | some item =>
              have hfresh := retryLoop_fresh _ _ _ _ _ _ _ hres
              have hrec := ih
                (constructFullUrl item.url :: usedUrls) p'
              obtain ⟨hlen, havoid, hnodup⟩ := hrec
              refine ⟨by simpa using Nat.succ_le_succ hlen, ?_, ?_⟩
              · intro u hu
                simp only [List.map_cons, List.mem_cons,
                  createResponseObject_url] at hu
                rcases hu with rfl | hu
                · exact hfresh
                · have := havoid u hu
                  simp only [List.contains_cons, Bool.or_eq_false_iff] at this
                  exact this.2
              · simp only [List.map_cons, List.nodup_cons,
                  createResponseObject_url]
                refine ⟨?_, hnodup⟩
                intro hmem
                have := havoid _ hmem
                simp at this

/-- The bounded retry loop reads at most one oracle value per attempt, so
its fuel bounds its oracle consumption. -/
theorem retryLoop_pos_le (pool : List CatalogRecord) (usedUrls : List String)
    (g : ℕ → ℕ) :
    ∀ fuel p, (retryLoop pool usedUrls g fuel p).2 ≤ p + fuel := by
  intro fuel
  induction fuel with
  | zero => intro p; simp [retryLoop]
  | succ n ih =>
      intro p
      rw [retryLoop]
      split
      · have := ih (p + 1)
        omega
      · show p + 1 ≤ p + (n + 1)
        omega

/-- Each iteration of the no-duplicates random draw loop reads one oracle
value to pick the category and at most MAX_RETRY_ATTEMPTS more inside the
bounded retry, so the oracle position advances by at most
MAX_RETRY_ATTEMPTS + 1 per requested item. -/
theorem randomModeLoop_pos_le (cfg : IntentConfig)
    (pools : List (String × List CatalogRecord)) (g : ℕ → ℕ) :
    ∀ remaining usedUrls p,
      (randomModeLoop cfg pools false g remaining usedUrls p).2 ≤
        p + remaining * (MAX_RETRY_ATTEMPTS + 1) := by
  intro remaining
  induction remaining with
  | zero => intro usedUrls p; simp [randomModeLoop]
  | succ n ih =>
      intro usedUrls p
      rw [randomModeLoop]
      simp only [Bool.false_eq_true, if_false]
      cases hres : retryLoop
          (pools.getD (g p % pools.length) ("", [])).2 usedUrls g
          MAX_RETRY_ATTEMPTS (p + 1) with
      | mk found p' =>
          have hple : p' ≤ p + 1 + MAX_RETRY_ATTEMPTS := by
            have hr := retryLoop_pos_le
              (pools.getD (g p % pools.length) ("", [])).2 usedUrls g
              MAX_RETRY_ATTEMPTS (p + 1)
            rw [hres] at hr
            exact hr
          cases found with
          | none =>
              show p' ≤ p + (n + 1) * (MAX_RETRY_ATTEMPTS + 1)
              simp only [MAX_RETRY_ATTEMPTS] at hple ⊢
              omega
          | some item =>
              have hrec := ih (constructFullUrl item.url :: usedUrls) p'
              show (randomModeLoop cfg pools false g n
                  (constructFullUrl item.url :: usedUrls) p').2 ≤
                p + (n + 1) * (MAX_RETRY_ATTEMPTS + 1)
              simp only [MAX_RETRY_ATTEMPTS] at hrec hple ⊢
              omega

/-- C2: in random mode with at least two surviving categories and duplicates
disallowed, the engine never fails on duplicate exhaustion: the bounded
per-draw retry silently truncates instead, so the output has at most the
requested amount of items and all output URLs are pairwise distinct, and
the loop performs at most MAX_RETRY_ATTEMPTS (50) retry draws per requested
item, visible here as the oracle position advancing by at most
amount * (MAX_RETRY_ATTEMPTS + 1). (selectRandomMode is a total function
into lists in this embedding because the source path throws nothing.) -/
theorem C2_random_mode_truncates_without_error (cfg : IntentConfig)
    (data : List (String × List CatalogRecord)) (amount : ℕ)
    (categories searchTerms : List String) (g : ℕ → ℕ) (p : ℕ)
    (hmulti :
      2 ≤ (buildSearchFilteredCategories data categories searchTerms).length) :
    (selectRandomMode cfg data amount categories searchTerms false g
        p).1.length ≤ amount ∧
    ((selectRandomMode cfg data amount categories searchTerms false g
        p).1.map ResponseObject.url).Nodup ∧
    (selectRandomMode cfg data amount categories searchTerms false g
        p).2 ≤ p + amount * (MAX_RETRY_ATTEMPTS + 1) := by
  have h0 :
      ¬((buildSearchFilteredCategories data categories searchTerms).length
        = 0) := by omega
  have h1 :
      ¬((buildSearchFilteredCategories data categories searchTerms).length
        = 1) := by omega
  have hloop := randomModeLoop_invariant cfg
    (buildSearchFilteredCategories data categories searchTerms) g amount [] p
  have hpos := randomModeLoop_pos_le cfg
    (buildSearchFilteredCategories data categories searchTerms) g amount [] p
  unfold selectRandomMode
  simp only [h0, h1, if_false]
  exact ⟨hloop.1, hloop.2.2, hpos⟩

/-- C2 witness: three items requested from the two sample categories with a
constant-zero oracle: the loop truncates after the first item, with no
error and no duplicate URL. -/
theorem C2_witness :
    2 ≤ (buildSearchFilteredCategories dataEx ["hug", "waifu"] []).length ∧
    ((selectRandomMode (initState dataEx).intentConfig dataEx 3
        ["hug", "waifu"] [] false gZero 0).1.length ≤ 3 ∧
      ((selectRandomMode (initState dataEx).intentConfig dataEx 3
        ["hug", "waifu"] [] false gZero 0).1.map ResponseObject.url).Nodup ∧
      (selectRandomMode (initState dataEx).intentConfig dataEx 3
        ["hug", "waifu"] [] false gZero 0).2 ≤
        0 + 3 * (MAX_RETRY_ATTEMPTS + 1)) :=
  ⟨by decide,
    C2_random_mode_truncates_without_error (initState dataEx).intentConfig
      dataEx 3 ["hug", "waifu"] [] gZero 0 (by decide)⟩

/-- The bounded Fisher-Yates loop emits exactly one item per remaining
pick. -/
theorem fisherYatesLoop_length (cfg : IntentConfig)
    (items : List CatalogRecord) (category : String) (g : ℕ → ℕ) :
    ∀ remaining indices i p,
      (fisherYatesLoop cfg items category g remaining indices i p).length =
        remaining := by
  intro remaining
  induction remaining with
  | zero => intro indices i p; rfl
  | succ n ih =>
      intro indices i p
      rw [fisherYatesLoop]
      simp [ih]

/-- Every item emitted by the Fisher-Yates loop carries the sampled
category as its action. -/
theorem fisherYatesLoop_action (cfg : IntentConfig)
    (items : List CatalogRecord) (category : String) (g : ℕ → ℕ) :
    ∀ remaining indices i p,
      ∀ x ∈ fisherYatesLoop cfg items category g remaining indices i p,
        x.action = category := by
  intro remaining
  induction remaining with
  | zero => intro indices i p x hx; simp [fisherYatesLoop] at hx
  | succ n ih =>
      intro indices i p x hx
      rw [fisherYatesLoop] at hx
      simp only [List.mem_cons] at hx
      rcases hx with rfl | hx
      · exact createResponseObject_action _ _ _
      · exact ih _ _ _ _ hx

/-- getRandomItems never returns more items than requested. -/
theorem getRandomItems_length_le (cfg : IntentConfig)
    (items : List CatalogRecord) (count : ℕ) (category : String)
    (dup : Bool) (g : ℕ → ℕ) (p : ℕ) :
    (getRandomItems cfg items count category dup g p).1.length ≤ count := by
  unfold getRandomItems
  by_cases h0 : items.length = 0
  · simp [h0]
  · by_cases hdup : dup
    · subst hdup
      simp [h0]
    · by_cases hc : count ≥ items.length
      · simp only [Bool.not_eq_true] at hdup
        subst hdup
        simp [h0, hc]
      · simp only [Bool.not_eq_true] at hdup
        subst hdup
        simp [h0, hc, fisherYatesLoop_length]

/-- With duplicates allowed and a non-empty pool, getRandomItems returns
exactly the requested number of items. -/
theorem getRandomItems_length_dup (cfg : IntentConfig)
    (items : List CatalogRecord) (count : ℕ) (category : String)
    (g : ℕ → ℕ) (p : ℕ) (hne : items ≠ []) :
    (getRandomItems cfg items count category true g p).1.length = count := by
  have h0 : items.length ≠ 0 := by
    simpa [List.length_eq_zero] using hne
  unfold getRandomItems
  simp [h0]

/-- Every item produced by getRandomItems carries the sampled category as
its action. -/
theorem getRandomItems_action (cfg : IntentConfig)
    (items : List CatalogRecord) (count : ℕ) (category : String)
    (dup : Bool) (g : ℕ → ℕ) (p : ℕ) :
    ∀ x ∈ (getRandomItems cfg items count category dup g p).1,
      x.action = category := by
  intro x hx
  unfold getRandomItems at hx
  by_cases h0 : items.length = 0
  · simp [h0] at hx
  · by_cases hdup : dup = true
    · simp [h0, hdup] at hx
      obtain ⟨i, _, heq⟩ := hx
      rw [← heq]
      exact createResponseObject_action _ _ _
    · have hdup' : dup = false := by simpa using hdup
      subst hdup'
      by_cases hc : items.length ≤ count
      · simp [h0, hc] at hx
        obtain ⟨item, _, heq⟩ := hx
        rw [← heq]
        exact createResponseObject_action _ _ _
      · simp [h0, hc] at hx
        exact fisherYatesLoop_action _ _ _ _ _ _ _ _ _ hx

/-- The total of the distributed shares for n categories starting at a given
index, where the categories with index below the remainder get one extra. -/
def shareSum (baseAmount remainder : ℕ) : ℕ → ℕ → ℕ
  | _, 0 => 0
  | index, n + 1 =>
      (if index < remainder then baseAmount + 1 else baseAmount) +
        shareSum baseAmount remainder (index + 1) n

/-- Closed form of shareSum, phrased additively to avoid truncated
subtraction. -/
theorem shareSum_add_min (b r : ℕ) :
    ∀ n i, shareSum b r i n + min r i = n * b + min r (i + n) := by
  intro n
  induction n with
  | zero => intro i; simp [shareSum]
  | succ m ih =>
      intro i
      have hih := ih (i + 1)
      rw [shareSum]
      have hmul : (m + 1) * b = m * b + b := by ring
      rw [hmul]
      rcases lt_or_ge i r with hlt | hge
      · rw [if_pos hlt]
        have harr : i + (m + 1) = (i + 1) + m := by ring
        rw [harr]
        omega
      · rw [if_neg (by omega)]
        have harr : i + (m + 1) = (i + 1) + m := by ring
        rw [harr]
        omega

/-- The distributed shares starting at index 0 sum to the requested amount
when the remainder is less than the category count. -/
theorem shareSum_total (amount n : ℕ) (hn : n ≠ 0) :
    shareSum (amount / n) (amount % n) 0 n = amount := by
  have h := shareSum_add_min (amount / n) (amount % n) n 0
  have hr : amount % n < n := Nat.mod_lt _ (Nat.pos_of_ne_zero hn)
  have hdm : n * (amount / n) + amount % n = amount := Nat.div_add_mod _ _
  simp only [Nat.zero_add, Nat.min_zero, Nat.add_zero] at h
  omega

/-- The distributed forEach loop yields at most the sum of the per-category
shares. -/
theorem distributedLoop_length_le (cfg : IntentConfig) (b r : ℕ)
    (dup : Bool) (g : ℕ → ℕ) :
    ∀ (pools : List (String × List CatalogRecord)) (index p : ℕ),
      (distributedLoop cfg b r dup g pools index p).1.length ≤
        shareSum b r index pools.length := by
  intro pools
  induction pools with
  | nil => intro index p; simp [distributedLoop, shareSum]
  | cons cp rest ih =>
      intro index p
      cases cp with
      | mk cat pool =>
          rw [distributedLoop]
          simp only [List.length_append, List.length_cons, shareSum]
          have h1 := getRandomItems_length_le cfg pool
            (if index < r then b + 1 else b) cat dup g p
          have h2 := ih (index + 1)
            (getRandomItems cfg pool (if index < r then b + 1 else b) cat dup
              g p).2
          omega

/-- With duplicates allowed and only non-empty pools, the distributed loop
yields exactly the sum of the per-category shares. -/
theorem distributedLoop_length_dup (cfg : IntentConfig) (b r : ℕ)
    (g : ℕ → ℕ) :
    ∀ (pools : List (String × List CatalogRecord)) (index p : ℕ),
      (∀ cp ∈ pools, cp.2 ≠ []) →
      (distributedLoop cfg b r true g pools index p).1.length =
        shareSum b r index pools.length := by
  intro pools
  induction pools with
  | nil => intro index p _; simp [distributedLoop, shareSum]
  | cons cp rest ih =>
      intro index p hne
      cases cp with
      | mk cat pool =>
          rw [distributedLoop]
          simp only [List.length_append, List.length_cons, shareSum]
          have h1 := getRandomItems_length_dup cfg pool
            (if index < r then b + 1 else b) cat g p
            (hne (cat, pool) (by simp))
          have h2 := ih (index + 1)
            (getRandomItems cfg pool (if index < r then b + 1 else b) cat true
              g p).2
            (fun x hx => hne x (List.mem_cons_of_mem _ hx))
          omega

/-- The distributed loop output decomposes into one segment per category, in
category order, each segment bounded by that category's share and labelled
with that category's name. -/
theorem distributedLoop_decomp (cfg : IntentConfig) (b r : ℕ) (dup : Bool)
    (g : ℕ → ℕ) :
    ∀ (pools : List (String × List CatalogRecord)) (index p : ℕ),
      ∃ segs : List (List ResponseObject),
        (distributedLoop cfg b r dup g pools index p).1 = segs.flatten ∧
        segs.length = pools.length ∧
        (∀ i, (segs.getD i []).length ≤
          (if index + i < r then b + 1 else b)) ∧
        (∀ i, ∀ x ∈ segs.getD i [],
          x.action = (pools.getD i ("", [])).1) := by
  intro pools
  induction pools with
  | nil =>
      intro index p
      refine ⟨[], by simp [distributedLoop], by simp, ?_, ?_⟩
      · intro i
        simp [List.getD]
      · intro i x hx
        simp [List.getD] at hx
  | cons cp rest ih =>
      intro index p
      cases cp with
      | mk cat pool =>
          obtain ⟨segs, hjoin, hlen, hbound, hact⟩ := ih (index + 1)
            (getRandomItems cfg pool (if index < r then b + 1 else b) cat dup
              g p).2
          refine ⟨(getRandomItems cfg pool (if index < r then b + 1 else b)
            cat dup g p).1 :: segs, ?_, by simpa using hlen, ?_, ?_⟩
          · rw [distributedLoop]
            simp [hjoin]
          · intro i
            cases i with
            | zero =>
                simpa using getRandomItems_length_le cfg pool _ cat dup g p
            | succ j =>
                have := hbound j
                simpa [Nat.add_assoc, Nat.add_comm 1 j,
                  Nat.add_left_comm] using this
          · intro i x hx
            cases i with
            | zero =>
                exact getRandomItems_action cfg pool _ cat dup g p x
                  (by simpa using hx)
            | succ j =>
                exact hact j x (by simpa using hx)

/-- Every pool kept by buildSearchFilteredCategories is non-empty. -/
theorem buildSearchFilteredCategories_pools_ne
    (data : List (String × List CatalogRecord))
    (categories searchTerms : List String) :
    ∀ cp ∈ buildSearchFilteredCategories data categories searchTerms,
      cp.2 ≠ [] := by
  intro cp hcp
  simp only [buildSearchFilteredCategories, List.mem_filterMap] at hcp
  obtain ⟨category, hcat, heq⟩ := hcp
  cases hl : data.lookup category with
  | none =>
      rw [hl] at heq
      simp at heq
  | some categoryItems =>
      rw [hl] at heq
      simp only at heq
      split at heq
      · rename_i hpos
        cases heq
        exact List.length_pos.mp hpos
      · simp at heq

/-- C5: distributed mode with at least one surviving category: the output
splits into one segment per surviving category in insertion order, the first
remainder categories bounded by base + 1 items and the rest by base, every
segment labelled with its category; the total output length is at most the
requested amount, and exactly the amount when duplicates are allowed. -/
theorem C5_distributed_mode_shares (cfg : IntentConfig)
    (data : List (String × List CatalogRecord)) (amount : ℕ)
    (categories searchTerms : List String) (dup : Bool) (g : ℕ → ℕ) (p : ℕ)
    (hne : buildSearchFilteredCategories data categories searchTerms ≠ []) :
    (selectDistributedMode cfg data amount categories searchTerms dup g
        p).1.length ≤ amount ∧
    (dup = true →
      (selectDistributedMode cfg data amount categories searchTerms dup g
        p).1.length = amount) ∧
    (∃ segs : List (List ResponseObject),
      (selectDistributedMode cfg data amount categories searchTerms dup g
        p).1 = segs.flatten ∧
      segs.length =
        (buildSearchFilteredCategories data categories searchTerms).length ∧
      (∀ i, (segs.getD i []).length ≤
        (if i < amount % (buildSearchFilteredCategories data categories
              searchTerms).length then
          amount / (buildSearchFilteredCategories data categories
            searchTerms).length + 1
        else
          amount / (buildSearchFilteredCategories data categories
            searchTerms).length)) ∧
      (∀ i, ∀ x ∈ segs.getD i [],
        x.action = ((buildSearchFilteredCategories data categories
          searchTerms).getD i ("", [])).1)) := by
  have h0 :
      (buildSearchFilteredCategories data categories searchTerms).length
        ≠ 0 := by
    simpa [List.length_eq_zero] using hne
  have hsel :
      selectDistributedMode cfg data amount categories searchTerms dup g p =
        distributedLoop cfg
          (amount /
            (buildSearchFilteredCategories data categories
              searchTerms).length)
          (amount %
            (buildSearchFilteredCategories data categories
              searchTerms).length)
          dup g (buildSearchFilteredCategories data categories searchTerms)
          0 p := by
    unfold selectDistributedMode
    simp [h0]
  rw [hsel]
  refine ⟨?_, ?_, ?_⟩
  · have hle := distributedLoop_length_le cfg
      (amount /
        (buildSearchFilteredCategories data categories searchTerms).length)
      (amount %
        (buildSearchFilteredCategories data categories searchTerms).length)
      dup g (buildSearchFilteredCategories data categories searchTerms) 0 p
    have htot := shareSum_total amount
      (buildSearchFilteredCategories data categories searchTerms).length h0
    omega
  · intro hdup
    subst hdup
    have heq := distributedLoop_length_dup cfg
      (amount /
        (buildSearchFilteredCategories data categories searchTerms).length)
      (amount %
        (buildSearchFilteredCategories data categories searchTerms).length)
      g (buildSearchFilteredCategories data categories searchTerms) 0 p
      (buildSearchFilteredCategories_pools_ne data categories searchTerms)
    have htot := shareSum_total amount
      (buildSearchFilteredCategories data categories searchTerms).length h0
    omega
  · obtain ⟨segs, h1, h2, h3, h4⟩ := distributedLoop_decomp cfg
      (amount /
        (buildSearchFilteredCategories data categories searchTerms).length)
      (amount %
        (buildSearchFilteredCategories data categories searchTerms).length)
      dup g (buildSearchFilteredCategories data categories searchTerms) 0 p
    exact ⟨segs, h1, h2, fun i => by simpa using h3 i, h4⟩

/-- C5 witness: four items over the two sample categories without
duplicates: every conjunct of the distributed-mode theorem holds at this
concrete input. -/
theorem C5_witness :
    buildSearchFilteredCategories dataEx ["hug", "waifu"] [] ≠ [] ∧
    ((selectDistributedMode (initState dataEx).intentConfig dataEx 4
        ["hug", "waifu"] [] false gZero 0).1.length ≤ 4 ∧
    (false = true →
      (selectDistributedMode (initState dataEx).intentConfig dataEx 4
        ["hug", "waifu"] [] false gZero 0).1.length = 4) ∧
    (∃ segs : List (List ResponseObject),
      (selectDistributedMode (initState dataEx).intentConfig dataEx 4
        ["hug", "waifu"] [] false gZero 0).1 = segs.flatten ∧
      segs.length =
        (buildSearchFilteredCategories dataEx ["hug", "waifu"] []).length ∧
      (∀ i, (segs.getD i []).length ≤
        (if i < 4 % (buildSearchFilteredCategories dataEx ["hug", "waifu"]
              []).length then
          4 / (buildSearchFilteredCategories dataEx ["hug", "waifu"]
            []).length + 1
        else
          4 / (buildSearchFilteredCategories dataEx ["hug", "waifu"]
            []).length)) ∧
      (∀ i, ∀ x ∈ segs.getD i [],
        x.action = ((buildSearchFilteredCategories dataEx ["hug", "waifu"]
          []).getD i ("", [])).1))) :=
  ⟨by decide,
    C5_distributed_mode_shares (initState dataEx).intentConfig dataEx 4
      ["hug", "waifu"] [] false gZero 0 (by decide)⟩

/-- Shape of a successful callNeko: the parsed options drive the engine, and
the result is unwrapped exactly when the parsed amount is 1 and the engine
produced exactly one item. -/
theorem callNeko_eval (s : NekoState) (g : ℕ → ℕ) (opts : CallOptions)
    (params : ParsedOptions)
    (hparse : parseOptions s.intentConfig opts = .ok params) :
    callNeko s g opts = .ok
      (if params.amount = 1 ∧ (runEngine s g params).length = 1 then
        .single ((runEngine s g params).headD default)
      else .many (runEngine s g params)) := by
  simp [callNeko, hparse]

/-- A failing parseOptions aborts callNeko with the same error, before the
selection engine runs. -/
theorem callNeko_propagates_error (s : NekoState) (g : ℕ → ℕ)
    (opts : CallOptions) (e : NekoError)
    (hparse : parseOptions s.intentConfig opts = .error e) :
    callNeko s g opts = .error e := by
  simp [callNeko, hparse]

/-- A successful parseOptions carries exactly the amount computed by
parseAmount. -/
theorem parseOptions_amount (cfg : IntentConfig) (opts : CallOptions)
    (params : ParsedOptions)
    (h : parseOptions cfg opts = .ok params) :
    parseAmount opts.amount = .ok params.amount := by
  unfold parseOptions at h
  split at h
  · simp at h
  · split at h
    · simp at h
    · dsimp only at h
      split at h
      · simp at h
      · cases h
        assumption

/-- C6 counterexample: metadata = 2 is a truthy non-list scalar, yet
callNekoIntent rejects it with a ConfigurationError instead of resolving
the policy to All without an error. -/
theorem C6_counterexample :
    (2 : ℚ) ≠ 0 ∧
    (callNekoIntent { metadata := .num 2, type := .undef }
        (initState dataEx)).1 =
      .error (.configurationError malformedMetadataMsg) := by
  constructor
  · norm_num
  · rfl

/-- C6 amended: exactly the scalars 0 and false resolve the metadata policy
to None, and exactly 1 and true resolve it to All (narrowed to the
kind-specific field set when the configured type is not Both); every other
non-null, non-undefined, non-array scalar raises a ConfigurationError. -/
theorem C6_scalar_metadata_policy (s : NekoState) (opts : IntentOptions)
    (hs : s.intentLocked = false) :
    ((opts.metadata = .num 0 ∨ opts.metadata = .bool false) →
      (callNekoIntent opts s).1 = .ok () ∧
      (callNekoIntent opts s).2.intentConfig.metadata = some []) ∧
    ((opts.metadata = .num 1 ∨ opts.metadata = .bool true) →
      (callNekoIntent opts s).1 = .ok () ∧
      (callNekoIntent opts s).2.intentConfig.metadata =
        (if normalizeType opts.type = CT_IMAGE then
          some METADATA_FIELDS_IMAGE
        else if normalizeType opts.type = CT_GIF then
          some METADATA_FIELDS_GIF
        else none)) ∧
    (∀ q : ℚ, opts.metadata = .num q → q ≠ 0 → q ≠ 1 →
      (callNekoIntent opts s).1 =
        .error (.configurationError malformedMetadataMsg)) ∧
    (∀ v, opts.metadata = .str v →
      (callNekoIntent opts s).1 =
        .error (.configurationError malformedMetadataMsg)) ∧
    (opts.metadata = .other →
      (callNekoIntent opts s).1 =
        .error (.configurationError malformedMetadataMsg)) := by
  refine ⟨?_, ?_, ?_, ?_, ?_⟩
  · intro hm
    rcases hm with hm | hm <;>
      simp [callNekoIntent, hs, normalizeMetadata, hm]
  · intro hm
    rcases hm with hm | hm <;>
      simp [callNekoIntent, hs, normalizeMetadata, hm]
  · intro q hm hq0 hq1
    simp [callNekoIntent, hs, normalizeMetadata, hm, hq0, hq1]
  · intro v hm
    simp [callNekoIntent, hs, normalizeMetadata, hm]
  · intro hm
    simp [callNekoIntent, hs, normalizeMetadata, hm]

/-- C6 amended-claim witness: metadata = 5 (truthy, not 0 or 1, not a list)
is rejected with the malformed-metadata ConfigurationError, while
metadata = 1 with the string type "2" (a TYPE_ALIASES key for GIF) locks
the policy to All narrowed to the GIF field set. -/
theorem C6_amended_witness :
    ((callNekoIntent { metadata := .num 5, type := .undef }
        (initState dataEx)).1 =
      .error (.configurationError malformedMetadataMsg)) ∧
    ((callNekoIntent { metadata := .num 1, type := .str "2" }
        (initState dataEx)).1 = .ok () ∧
      (callNekoIntent { metadata := .num 1, type := .str "2" }
        (initState dataEx)).2.intentConfig.metadata =
        some METADATA_FIELDS_GIF) :=
  ⟨(C6_scalar_metadata_policy (initState dataEx)
      { metadata := .num 5, type := .undef } rfl).2.2.1 5 rfl
      (by norm_num) (by norm_num),
    (C6_scalar_metadata_policy (initState dataEx)
      { metadata := .num 1, type := .str "2" } rfl).2.1 (Or.inl rfl)⟩

/-- C7: the amount is validated before any selection runs. A non-numeric,
non-finite, or below-1 amount fails parseOptions with the ValidationError,
which aborts callNeko before the engine is consulted; a finite amount q at
least 1 is truncated toward zero (floor, which agrees with truncation for
values at least 1) and that integer is the amount handed to the selection
engine. -/
theorem C7_amount_validation :
    (∀ (cfg : IntentConfig) (opts : CallOptions),
      (opts.amount = .nonNumber ∨ opts.amount = .nan ∨
        opts.amount = .inf) →
      parseOptions cfg opts = .error (.validationError amountErrMsg)) ∧
    (∀ (cfg : IntentConfig) (opts : CallOptions) (q : ℚ),
      opts.amount = .num q → q < 1 →
      parseOptions cfg opts = .error (.validationError amountErrMsg)) ∧
    (∀ (cfg : IntentConfig) (opts : CallOptions) (q : ℚ)
        (params : ParsedOptions),
      opts.amount = .num q → parseOptions cfg opts = .ok params →
      (params.amount : ℤ) = ⌊q⌋ ∧ 1 ≤ params.amount ∧
      (params.amount : ℚ) ≤ q ∧ q < (params.amount : ℚ) + 1) ∧
    (∀ (s : NekoState) (g : ℕ → ℕ) (opts : CallOptions) (e : NekoError),
      parseOptions s.intentConfig opts = .error e →
      callNeko s g opts = .error e) ∧
    (∀ (s : NekoState) (g : ℕ → ℕ) (opts : CallOptions)
        (params : ParsedOptions),
      parseOptions s.intentConfig opts = .ok params →
      callNeko s g opts = .ok
        (if params.amount = 1 ∧ (runEngine s g params).length = 1 then
          .single ((runEngine s g params).headD default)
        else .many (runEngine s g params))) := by
  refine ⟨?_, ?_, ?_,
    fun s g opts e h => callNeko_propagates_error s g opts e h,
    fun s g opts params h => callNeko_eval s g opts params h⟩
  · intro cfg opts h
    rcases h with h | h | h <;>
      simp [parseOptions, parseAmount, h]
  · intro cfg opts q hq hlt
    simp [parseOptions, parseAmount, hq, hlt]
  · intro cfg opts q params hq hok
    have ha := parseOptions_amount cfg opts params hok
    rw [hq] at ha
    simp only [parseAmount] at ha
    by_cases hlt : q < 1
    · simp [hlt] at ha
    · rw [if_neg hlt] at ha
      have hval : params.amount = Int.toNat ⌊q⌋ :=
        (Except.ok.inj ha).symm
      have h1le : (1 : ℚ) ≤ q := not_lt.mp hlt
      have hfl1 : (1 : ℤ) ≤ ⌊q⌋ := by
        rw [Int.le_floor]
        exact_mod_cast h1le
      have htn : ((Int.toNat ⌊q⌋ : ℤ)) = ⌊q⌋ :=
        Int.toNat_of_nonneg (by omega)
      refine ⟨by rw [hval]; exact htn, by omega, ?_, ?_⟩
      · have hle := Int.floor_le q
        have hcast : ((params.amount : ℤ) : ℚ) ≤ q := by
          rw [hval, htn]
          exact hle
        exact_mod_cast hcast
      · have hlt2 := Int.lt_floor_add_one q
        have hcast : q < ((params.amount : ℤ) : ℚ) + 1 := by
          rw [hval, htn]
          exact hlt2
        exact_mod_cast hcast

/-- C7 witness: amount = 1/2 is rejected by parseOptions on the sample
configuration. -/
theorem C7_witness :
    parseOptions (initState dataEx).intentConfig
        { amount := .num (1 / 2) } =
      .error (.validationError amountErrMsg) :=
  C7_amount_validation.2.1 (initState dataEx).intentConfig
    { amount := .num (1 / 2) } (1 / 2) rfl (by norm_num)

/-- C8: a successful fetch unwraps to a single item exactly when the parsed
amount is 1 and the engine produced exactly one item; in every other case
the full (possibly empty or truncated) sequence is returned unchanged. -/
theorem C8_single_unwrap (s : NekoState) (g : ℕ → ℕ) (opts : CallOptions)
    (params : ParsedOptions)
    (hparse : parseOptions s.intentConfig opts = .ok params) :
    ((∃ x, callNeko s g opts = .ok (.single x)) ↔
      (params.amount = 1 ∧ (runEngine s g params).length = 1)) ∧
    (∀ l, callNeko s g opts = .ok (.many l) → l = runEngine s g params) := by
  have hcn := callNeko_eval s g opts params hparse
  constructor
  · constructor
    · rintro ⟨x, hx⟩
      rw [hcn] at hx
      by_cases hc : params.amount = 1 ∧ (runEngine s g params).length = 1
      · exact hc
      · rw [if_neg hc] at hx
        simp at hx
    · intro hc
      exact ⟨(runEngine s g params).headD default, by rw [hcn, if_pos hc]⟩
  · intro l hl
    rw [hcn] at hl
    by_cases hc : params.amount = 1 ∧ (runEngine s g params).length = 1
    · rw [if_pos hc] at hl
      simp at hl
    · rw [if_neg hc] at hl
      have : runEngine s g params = l := by simpa using hl
      exact this.symm

/-- C8 witness: the bare sample call parses to amount 1 and the engine
yields exactly one item, so the unwrap equivalence produces a single item. -/
theorem C8_witness :
    ∃ x, callNeko stateEx gZero {} = .ok (.single x) :=
  ((C8_single_unwrap stateEx gZero {}
    { amount := 1, actions := VALID_ACTIONS, search := [], type := CT_BOTH,
      mode := .random, dupe := false } rfl).1).mpr ⟨rfl, by decide⟩

/-- C9: an absent amount option defaults to 1 in parseOptions, so a bare
fetch call whose engine run yields exactly one item returns that item
unwrapped rather than as a one-element sequence. -/
theorem C9_default_amount_one (s : NekoState) (g : ℕ → ℕ)
    (opts : CallOptions) (params : ParsedOptions)
    (hamount : opts.amount = .undef)
    (hparse : parseOptions s.intentConfig opts = .ok params) :
    params.amount = 1 ∧
    ((runEngine s g params).length = 1 →
      ∃ x, callNeko s g opts = .ok (.single x)) := by
  have ha := parseOptions_amount s.intentConfig opts params hparse
  rw [hamount] at ha
  simp only [parseAmount] at ha
  have h1 : params.amount = 1 := (Except.ok.inj ha).symm
  refine ⟨h1, ?_⟩
  intro hlen
  have hcn := callNeko_eval s g opts params hparse
  rw [if_pos ⟨h1, hlen⟩] at hcn
  exact ⟨_, hcn⟩

/-- C9 witness: the completely bare call on the sample state returns one
unwrapped item. -/
theorem C9_witness :
    parseOptions stateEx.intentConfig {} =
      .ok { amount := 1, actions := VALID_ACTIONS, search := [],
            type := CT_BOTH, mode := .random, dupe := false } ∧
    ∃ x, callNeko stateEx gZero {} = .ok (.single x) :=
  ⟨rfl,
    (C9_default_amount_one stateEx gZero {}
      { amount := 1, actions := VALID_ACTIONS, search := [], type := CT_BOTH,
        mode := .random, dupe := false } rfl rfl).2 (by decide)⟩

/-- C10: metadata list entries are trimmed and blank entries dropped before
validation: a list of only-blank strings locks the policy to None (the
empty field list) with no error, and the unknown-field validation only ever
sees trimmed non-blank entries, so it cannot fail when those are all
known. -/
theorem C10_blank_metadata_entries (s : NekoState) (xs : List String)
    (ty : TypeArg) (hs : s.intentLocked = false)
    (hblank : ∀ x ∈ xs, jsTrim x = "") :
    (callNekoIntent { metadata := .arr xs, type := ty } s).1 = .ok () ∧
    (callNekoIntent { metadata := .arr xs, type := ty }
        s).2.intentConfig.metadata = some [] ∧
    (∀ (ys : List String) (t : Nat),
      (((ys.map jsTrim).filter (fun f => f ≠ "")).all
        (fun f => (METADATA_FIELDS_IMAGE ++ METADATA_FIELDS_GIF).contains f))
        = true →
      ∃ fs, normalizeMetadata (.arr ys) t = .ok (some fs)) := by
  have hreq : (xs.map jsTrim).filter (fun f => f ≠ "") = [] := by
    rw [List.filter_eq_nil_iff]
    intro a ha
    obtain ⟨x, hx, rfl⟩ := List.mem_map.mp ha
    simp [hblank x hx]
  have hnm : normalizeMetadata (.arr xs) (normalizeType ty) =
      .ok (some []) := by
    unfold normalizeMetadata
    dsimp only
    rw [hreq]
    simp
  refine ⟨?_, ?_, ?_⟩
  · simp [callNekoIntent, hs, hnm]
  · simp [callNekoIntent, hs, hnm]
  · intro ys t hall
    have hinv : (((ys.map jsTrim).filter (fun f => f ≠ "")).filter
        (fun f =>
          !(METADATA_FIELDS_IMAGE ++ METADATA_FIELDS_GIF).contains f))
        = [] := by
      rw [List.filter_eq_nil_iff]
      intro a ha
      have h2 := List.all_eq_true.mp hall a ha
      have h3 : a ∈ METADATA_FIELDS_IMAGE ++ METADATA_FIELDS_GIF := by
        simpa using h2
      simpa using
        (fun hni => (List.mem_append.mp h3).resolve_left hni :
          a ∉ METADATA_FIELDS_IMAGE → a ∈ METADATA_FIELDS_GIF)
    refine ⟨(if t = CT_GIF ∨ t = CT_BOTH then
        ((ys.map jsTrim).filter (fun f => f ≠ "")).filter
          (fun f => METADATA_FIELDS_GIF.contains f)
      else []) ++
      (if t = CT_IMAGE ∨ t = CT_BOTH then
        ((ys.map jsTrim).filter (fun f => f ≠ "")).filter
          (fun f => METADATA_FIELDS_IMAGE.contains f)
      else []), ?_⟩
    unfold normalizeMetadata
    dsimp only
    rw [hinv]
    simp

/-- C10 witness: a metadata list holding only a blank string locks the
policy to None with no error on the sample state. -/
theorem C10_witness :
    (callNekoIntent { metadata := .arr ["  "], type := .undef }
        (initState dataEx)).1 = .ok () ∧
    (callNekoIntent { metadata := .arr ["  "], type := .undef }
        (initState dataEx)).2.intentConfig.metadata = some [] :=
  ⟨(C10_blank_metadata_entries (initState dataEx) ["  "] .undef rfl
      (by decide)).1,
    (C10_blank_metadata_entries (initState dataEx) ["  "] .undef rfl
      (by decide)).2.1⟩

end LocalNekosBest
